import Mathlib

/-!
Verification development for the strava_analytics pipeline.

The repository's ETL core (Token Manager, Extractor, Transformer, Loader,
Pipeline Coordinator) is specified in spec.md sections 3-4; the repository
itself ships only the exploratory notebook load path
(src/src/03-push_data_to_DB.ipynb), shell tooling
(scripts/testing/check_git_safety.sh and friends) and documentation.
Components whose code is absent are modelled from the spec, as marked in
each doc comment; the notebook load path and the git safety script are
embedded from the source directly.
-/

set_option autoImplicit false

namespace StravaAnalytics

/-! Token Manager (spec 3, 4.1) -/

/-- Modelled from the spec: the persisted Credential record of spec section 3
(the Token Manager implementation is not under src/).
`expires_at` is an absolute timestamp in seconds. -/
structure Credential where
  access_token : String
  refresh_token : String
  expires_at : Int
  deriving DecidableEq, Repr

/-- Modelled from the spec: remaining validity of a Credential against the
current time, as computed by `check_status`. -/
def seconds_remaining (c : Credential) (now : Int) : Int :=
  c.expires_at - now

/-- Modelled from the spec: the external token endpoint of spec section 6.
`accept` tells whether the refresh exchange is accepted or rejected
(e.g. revoked authorization); on acceptance the endpoint grants a fresh
token pair valid for `expires_in` seconds from the moment of exchange. -/
structure TokenEndpoint where
  accept : Bool
  new_access : String
  new_refresh : String
  expires_in : Int
  deriving DecidableEq, Repr

/-- Error taxonomy of spec section 7 (the kinds raised by the Token Manager). -/
inductive TokenError where
  | CredentialMissing
  | RefreshFailed
  deriving DecidableEq, Repr

/-- Outcome of one `ensure_valid` call: the returned or failed result, the
Credential persisted in the store afterwards, and how many network calls
(refresh exchanges against the token endpoint) were issued. -/
structure EnsureOutcome where
  result : Except TokenError Credential
  store : Option Credential
  network_calls : Nat
  deriving Repr

/-- Modelled from the spec: `ensure_valid(refresh_buffer, force)` of spec 4.1
(the Token Manager implementation is not under src/). If `force` is true or
`seconds_remaining <= buffer`, it exchanges the refresh token at the endpoint
exactly once: on acceptance the new Credential is persisted, on rejection it
fails with `RefreshFailed` and is not retried. Otherwise the stored
Credential is returned unchanged with zero network calls. -/
def ensure_valid (ep : TokenEndpoint) (store : Option Credential)
    (now buffer : Int) (force : Bool) : EnsureOutcome :=
  match store with
  | none => ⟨.error .CredentialMissing, none, 0⟩
  | some c =>
    if force || seconds_remaining c now ≤ buffer then
      if ep.accept then
        let fresh : Credential := ⟨ep.new_access, ep.new_refresh, now + ep.expires_in⟩
        ⟨.ok fresh, some fresh, 1⟩
      else
        ⟨.error .RefreshFailed, some c, 1⟩
    else
      ⟨.ok c, some c, 0⟩

/-! Normalized rows and the Loader (spec 3, 4.4) -/

/-- A calendar timestamp in the activity's local timezone. -/
structure LocalDateTime where
  year : Nat
  month : Nat
  day : Nat
  hour : Nat
  minute : Nat
  second : Nat
  deriving DecidableEq, Repr

/-- Injective mixed-radix encoding of a local timestamp, used to compare
activity dates (all components are within radix bounds for parsed dates). -/
def dateCode (dt : LocalDateTime) : Nat :=
  ((((dt.year * 16 + dt.month) * 32 + dt.day) * 32 + dt.hour) * 64 + dt.minute) * 64 + dt.second

/-- Modelled from the spec: the NormalizedActivity row of spec section 3
(the Transformer implementation is not under src/). -/
structure NormalizedActivity where
  activity_id : Int
  name : String
  distance_km : Rat
  moving_time_hr : Rat
  sport_type : String
  start_date_local : LocalDateTime
  hour : Nat
  weekday : Nat
  year : Nat
  month : Nat
  deriving DecidableEq, Repr

/-- Conflict policies of the Loader contract, spec 4.4. -/
inductive ConflictPolicy where
  | append
  | replace
  | fail
  deriving DecidableEq, Repr

/-- Modelled from the spec: a LoadBatch, spec section 3 — the rows of one
pipeline run plus the chosen conflict policy and deduplication flag. -/
structure LoadBatch where
  rows : List NormalizedActivity
  policy : ConflictPolicy
  dedup : Bool
  deriving DecidableEq, Repr

/-- Error raised by the `fail` conflict policy, spec section 7. -/
inductive LoadError where
  | LoadConflict
  deriving DecidableEq, Repr

/-- Outcome of one `load` call: success or `LoadConflict`, the destination
table contents afterwards, and the number of rows written. -/
structure LoadOutcome where
  result : Except LoadError Unit
  table : List NormalizedActivity
  rows_written : Nat
  deriving Repr

/-- Is row `t` dated within the covered date range of `batch` (between the
earliest and the latest `start_date_local` of the batch)? -/
def coveredBy (batch : List NormalizedActivity) (t : NormalizedActivity) : Bool :=
  batch.any (fun a => dateCode a.start_date_local ≤ dateCode t.start_date_local) &&
    batch.any (fun a => dateCode t.start_date_local ≤ dateCode a.start_date_local)

/-- Modelled from the spec: the Loader's `load` of spec 4.4 (the Loader
implementation is not under src/). `append` inserts all rows, except that
with `dedup` the rows whose `activity_id` already exists in the table are
skipped by a pre-load existence check; `replace` drops and recreates the
table; `fail` refuses to write when the table already contains a row dated
within the batch's covered date range. -/
def load (batch : LoadBatch) (table : List NormalizedActivity) : LoadOutcome :=
  match batch.policy with
  | .append =>
    let fresh :=
      if batch.dedup then
        batch.rows.filter (fun r => !(table.any (fun t => t.activity_id == r.activity_id)))
      else
        batch.rows
    ⟨.ok (), table ++ fresh, fresh.length⟩
  | .replace => ⟨.ok (), batch.rows, batch.rows.length⟩
  | .fail =>
    if table.any (fun t => coveredBy batch.rows t) then
      ⟨.error .LoadConflict, table, 0⟩
    else
      ⟨.ok (), table ++ batch.rows, batch.rows.length⟩

/-! Transformer (spec 3, 4.3) -/

/-- One field of a raw API record: absent, a JSON number, or a JSON string.
Used to express "absent or malformed" required fields. -/
inductive RawField where
  | missing
  | num (q : Rat)
  | str (s : String)
  deriving DecidableEq, Repr

/-- Modelled from the spec: a RawActivity as returned by the activity listing
endpoint (spec section 3; the Extractor/Transformer implementation is not
under src/), restricted to the fields the Transformer consumes. -/
structure RawActivity where
  id : RawField
  name : RawField
  distance : RawField
  moving_time : RawField
  sport_type : RawField
  start_date_local : RawField
  deriving DecidableEq, Repr

/-- Splits a character list at every occurrence of the separator `c`. -/
def splitChar (c : Char) : List Char → List (List Char)
  | [] => [[]]
  | a :: as =>
    let r := splitChar c as
    if a = c then [] :: r
    else
      match r with
      | [] => [[a]]
      | g :: gs => (a :: g) :: gs

/-- The numeric value of a decimal digit character, if it is one. -/
def charDigit (a : Char) : Option Nat :=
  if a.isDigit then some (a.toNat - 48) else none

/-- Reads a decimal number from the digits in `l`, accumulating into `acc`;
fails on any non-digit character. -/
def readNatAux : List Char → Nat → Option Nat
  | [], acc => some acc
  | a :: as, acc =>
    match charDigit a with
    | some d => readNatAux as (acc * 10 + d)
    | none => none

/-- Reads a nonempty all-digit character list as a decimal number. -/
def readNat : List Char → Option Nat
  | [] => none
  | l => readNatAux l 0

/-- Parses a local ISO-8601 timestamp of the shape
YYYY-MM-DDTHH:MM:SS with an optional trailing Z, validating field ranges;
returns none on any unparsable date. -/
def parseDateTime (s : String) : Option LocalDateTime :=
  let cs := s.data
  let cs := if cs.getLast? = some 'Z' then cs.dropLast else cs
  match splitChar 'T' cs with
  | [d, t] =>
    match splitChar '-' d, splitChar ':' t with
    | [ys, ms, ds], [hs, mis, ss] =>
      match readNat ys, readNat ms, readNat ds, readNat hs, readNat mis, readNat ss with
      | some y, some mo, some da, some h, some mi, some se =>
        if 1 ≤ mo ∧ mo ≤ 12 ∧ 1 ≤ da ∧ da ≤ 31 ∧ h < 24 ∧ mi < 60 ∧ se < 60 then
          some ⟨y, mo, da, h, mi, se⟩
        else none
      | _, _, _, _, _, _ => none
    | _, _ => none
  | _ => none

/-- Day of the week of a Gregorian calendar date by Zeller's congruence
(0 = Saturday, ..., 6 = Friday). -/
def weekdayOf (y m d : Nat) : Nat :=
  let yy := if m < 3 then y - 1 else y
  let mm := if m < 3 then m + 12 else m
  let k := yy % 100
  let j := yy / 100
  (d + (13 * (mm + 1)) / 5 + k + k / 4 + j / 4 + 5 * j) % 7

/-- The Transformer's per-record error, spec section 7. -/
inductive TransformError where
  | SchemaViolation
  deriving DecidableEq, Repr

/-- The optional `name` field, defaulted to the empty string when absent or
not a string (name is not among the required fields of spec 4.3). -/
def nameOr (r : RawActivity) : String :=
  match r.name with
  | .str s => s
  | _ => ""

/-- Modelled from the spec: the Transformer's `normalize` of spec 4.3 (the
Transformer implementation is not under src/). Pure; fails with
`SchemaViolation` when a required field (`id`, `distance`, `moving_time`,
`sport_type`, `start_date_local`) is absent or malformed (non-numeric
distance or moving time, non-integral id, unparsable date). Converts
distance from meters to kilometers and moving time from seconds to hours
exactly (no rounding), and derives the calendar fields from the local
start time. -/
def normalize (r : RawActivity) : Except TransformError NormalizedActivity :=
  match r.id, r.distance, r.moving_time, r.sport_type, r.start_date_local with
  | .num i, .num d, .num mt, .str st, .str sd =>
    if i.den = 1 then
      match parseDateTime sd with
      | some dt =>
        .ok ⟨i.num, nameOr r, d / 1000, mt / 3600, st, dt,
             dt.hour, weekdayOf dt.year dt.month dt.day, dt.year, dt.month⟩
      | none => .error .SchemaViolation
    else .error .SchemaViolation
  | _, _, _, _, _ => .error .SchemaViolation

/-- The required-field contract of spec 4.3, written directly from the spec's
words: `id` is an integral number, `distance` and `moving_time` are numbers,
`sport_type` is a string, and `start_date_local` is a parsable date string. -/
def requiredFieldsOk (r : RawActivity) : Bool :=
  (match r.id with | .num q => q.den == 1 | _ => false) &&
  (match r.distance with | .num _ => true | _ => false) &&
  (match r.moving_time with | .num _ => true | _ => false) &&
  (match r.sport_type with | .str _ => true | _ => false) &&
  (match r.start_date_local with | .str s => (parseDateTime s).isSome | _ => false)

/-- Result of transforming one extracted batch: the normalized rows, and the
count of records skipped for `SchemaViolation` (reported in the run summary). -/
structure BatchResult where
  rows : List NormalizedActivity
  skipped : Nat
  deriving DecidableEq, Repr

/-- Modelled from the spec: the per-batch transform step (spec sections 4.3
and 7; the pipeline implementation is not under src/). A record failing
`normalize` is skipped and counted; the pipeline continues with the
remaining records of the batch instead of aborting. -/
def transformBatch : List RawActivity → BatchResult
  | [] => ⟨[], 0⟩
  | r :: rs =>
    let rest := transformBatch rs
    match normalize r with
    | .ok n => ⟨n :: rest.rows, rest.skipped⟩
    | .error _ => ⟨rest.rows, rest.skipped + 1⟩

/-! Extractor (spec 4.2) -/

/-- The date code of a raw record's local start time, when it has one. -/
def rawDateCode (r : RawActivity) : Option Nat :=
  match r.start_date_local with
  | .str s => (parseDateTime s).map dateCode
  | _ => none

/-- Modelled from the spec: the `after`/`before` date filter of
`fetch_activities` (spec 4.2). A record with no parsable date is kept —
judging malformed records is the Transformer's job. -/
def dateFilter (after? before? : Option Nat) (r : RawActivity) : Bool :=
  match rawDateCode r with
  | none => true
  | some c =>
    (match after? with | none => true | some a => a ≤ c) &&
    (match before? with | none => true | some b => c ≤ b)

/-- Does the pagination loop stop after fetching page `page`? It does when
the page is short (fewer records than the fixed page size) or when the date
filter excludes every record of the page. -/
def stopPage (src : Nat → List RawActivity) (per_page : Nat)
    (keep : RawActivity → Bool) (page : Nat) : Bool :=
  (src page).length < per_page || ((src page).filter keep).isEmpty

/-- Modelled from the spec: the paginated fetch loop of `fetch_activities`
(spec 4.2; the Extractor implementation is not under src/). `src` is the
activity listing endpoint, giving the records of each page; pages are
fetched in order starting at `page`, at most `fuel` of them. Returns the
kept records together with the number of pages actually fetched. -/
def fetchLoop (src : Nat → List RawActivity) (per_page : Nat)
    (keep : RawActivity → Bool) : Nat → Nat → List RawActivity × Nat
  | 0, _ => ([], 0)
  | fuel + 1, page =>
    let kept := (src page).filter keep
    if stopPage src per_page keep page then (kept, 1)
    else
      let rest := fetchLoop src per_page keep fuel (page + 1)
      (kept ++ rest.1, rest.2 + 1)

/-- Modelled from the spec: `fetch_activities(token, after, before,
max_pages)` of spec 4.2, starting from page 1. The produced sequence is a
finite list; the loop stops on a short page, on a page whose records are all
excluded by the date filter, or after `max_pages` pages. -/
def fetch_activities (src : Nat → List RawActivity) (per_page : Nat)
    (after? before? : Option Nat) (max_pages : Nat) : List RawActivity × Nat :=
  fetchLoop src per_page (dateFilter after? before?) max_pages 1

/-! Pipeline Coordinator (spec 4.5) -/

/-- The Coordinator's states, spec 4.5. -/
inductive CoordState where
  | Idle
  | TokenCheck
  | Extracting
  | Transforming
  | Loading
  | Done
  | Failed
  deriving DecidableEq, Repr

/-- The error taxonomy of spec section 7, as aggregated by the Coordinator. -/
inductive ErrorKind where
  | CredentialMissing
  | RefreshFailed
  | ExtractionFailed
  | SchemaViolation
  | LoadConflict
  deriving DecidableEq, Repr

/-- Modelled from the spec: the outcome each step reports to the Coordinator
when invoked once — an error kind, or the number of rows the step handed to
the next one (0 for the token check). Retry policy lives inside the steps
themselves, so one `StepOutcomes` value is what one run observes. -/
structure StepOutcomes where
  tokenStep : Except ErrorKind Nat
  extractStep : Except ErrorKind Nat
  transformStep : Except ErrorKind Nat
  loadStep : Except ErrorKind Nat
  deriving Repr

/-- The structured failure record the Coordinator aggregates, spec 4.5. -/
structure FailInfo where
  step_failed : CoordState
  error_kind : ErrorKind
  rows_processed_so_far : Nat
  deriving DecidableEq, Repr

/-- A finished run: the sequence of states traversed, and the structured
failure when the run did not reach Done. -/
structure RunReport where
  trace : List CoordState
  failed : Option FailInfo
  deriving DecidableEq, Repr

/-- The state sequence of a fully successful run. -/
def okTrace : List CoordState :=
  [.Idle, .TokenCheck, .Extracting, .Transforming, .Loading, .Done]

/-- Modelled from the spec: the Coordinator's `run` (spec 4.5; the
Coordinator implementation is not under src/). Steps are invoked strictly
sequentially, each at most once (no retries); the first failing step moves
the machine directly to the terminal Failed state with the structured
result. -/
def run (s : StepOutcomes) : RunReport :=
  match s.tokenStep with
  | .error e => ⟨[.Idle, .TokenCheck, .Failed], some ⟨.TokenCheck, e, 0⟩⟩
  | .ok _ =>
    match s.extractStep with
    | .error e => ⟨[.Idle, .TokenCheck, .Extracting, .Failed], some ⟨.Extracting, e, 0⟩⟩
    | .ok extracted =>
      match s.transformStep with
      | .error e =>
        ⟨[.Idle, .TokenCheck, .Extracting, .Transforming, .Failed],
         some ⟨.Transforming, e, extracted⟩⟩
      | .ok transformed =>
        match s.loadStep with
        | .error e =>
          ⟨[.Idle, .TokenCheck, .Extracting, .Transforming, .Loading, .Failed],
           some ⟨.Loading, e, transformed⟩⟩
        | .ok _ => ⟨okTrace, none⟩

/-- Position of each non-terminal state in the successful trace (Failed and
Done have no successor). -/
def stepIndex : CoordState → Nat
  | .Idle => 0
  | .TokenCheck => 1
  | .Extracting => 2
  | .Transforming => 3
  | .Loading => 4
  | .Done => 5
  | .Failed => 6

/-! Notebook load path (src/src/03-push_data_to_DB.ipynb)

The notebook loads the athlete frame with
`athletes_df.to_sql('athletes', con=engine, if_exists='append', index=False)`.
On the first write pandas emits the CREATE TABLE statement captured in the
notebook's own output log — plain columns, no PRIMARY KEY and no UNIQUE
constraint — and then inserts every row of the frame; on later writes it
only inserts. -/

/-- One column of a CREATE TABLE statement, with its key constraints. -/
structure ColumnDef where
  colName : String
  sqlType : String
  primaryKey : Bool
  uniqueKey : Bool
  deriving DecidableEq, Repr

/-- The CREATE TABLE athletes statement emitted by the notebook's `to_sql`
call (transcribed from the notebook's execution log): seven plain columns,
no PRIMARY KEY, no UNIQUE. -/
def athletesDDL : List ColumnDef :=
  [⟨"id", "BIGINT", false, false⟩,
   ⟨"username", "TEXT", false, false⟩,
   ⟨"firstname", "TEXT", false, false⟩,
   ⟨"lastname", "TEXT", false, false⟩,
   ⟨"city", "TEXT", false, false⟩,
   ⟨"sex", "TEXT", false, false⟩,
   ⟨"weight", "FLOAT", false, false⟩]

/-- A row of the notebook's athlete frame (the columns of strava_athlete.csv
as they appear in the emitted INSERT statement). -/
structure AthleteRow where
  id : Int
  username : String
  firstname : String
  lastname : String
  city : String
  sex : String
  weight : Rat
  deriving DecidableEq, Repr

/-- A relational table: its schema and its current rows. -/
structure SqlTable where
  schema : List ColumnDef
  rows : List AthleteRow
  deriving DecidableEq, Repr

/-- The notebook's `to_sql(..., if_exists='append', index=False)` call: when
the destination table does not exist it is created with `athletesDDL` and
all frame rows are inserted; when it exists, all frame rows are inserted
after the existing ones. There is no pre-insert existence check. -/
def to_sql_append (frame : List AthleteRow) (table : Option SqlTable) : SqlTable :=
  match table with
  | none => ⟨athletesDDL, frame⟩
  | some t => ⟨t.schema, t.rows ++ frame⟩

/-! Git safety check script (src/scripts/testing/check_git_safety.sh)

The script initializes SAFE_TO_PUSH=true and runs six checks, each setting
SAFE_TO_PUSH=false on failure. Two of the six run their assignment inside a
while-read loop fed by a pipe: in bash the loop body then executes in a
subshell, so those assignments never reach the parent shell. The embedding
records for each check whether its assignment runs in the main shell or in
a subshell and gives the pipe its real semantics. -/

/-- Does `l` lead `m`, i.e. is `l` an initial segment of `m`? -/
def leadsChars : List Char → List Char → Bool
  | [], _ => true
  | _ :: _, [] => false
  | a :: as, b :: bs => a = b && leadsChars as bs

/-- Does the needle occur contiguously somewhere in the haystack? -/
def subChars (needle : List Char) : List Char → Bool
  | [] => leadsChars needle []
  | b :: bs => leadsChars needle (b :: bs) || subChars needle bs

/-- Does `hay` contain `pat` as a contiguous substring? -/
def strSub (hay pat : String) : Bool :=
  subChars pat.data hay.data

/-- Does `s` end with the suffix `suf`? -/
def strEnds (s suf : String) : Bool :=
  leadsChars suf.data.reverse s.data.reverse

/-- The state of the repository as the script observes it: the lines of
.gitignore when present, whether we are in a git repo, the files git status
would commit, whether any staged file matches a sensitive content pattern,
the files present on disk, the paths git check-ignore accepts, the database
files found, and whether a .venv directory exists. -/
structure RepoState where
  gitignore : Option (List String)
  inGitRepo : Bool
  filesToCommit : List String
  stagedSensitiveContent : Bool
  diskFiles : List String
  ignoredPaths : List String
  dbFiles : List String
  venvExists : Bool
  deriving Repr

/-- The essential .gitignore patterns of check 1 (script lines 25). -/
def essentialPatterns : List String :=
  [".env", "tokens.json", ".venv/", "__pycache__/"]

/-- Check 1: .gitignore exists and greps every essential pattern. -/
def gitignoreCheck (s : RepoState) : Bool :=
  match s.gitignore with
  | none => false
  | some lines => essentialPatterns.all (fun p => lines.any (fun line => strSub line p))

/-- The sensitive filename extensions of script line 61. -/
def sensitiveExts : List String :=
  [".env", ".key", ".secret", ".credential", ".pem", ".p12", ".pfx"]

/-- The sensitive filename keywords of script line 62. -/
def sensitiveWords : List String :=
  ["secret", "credential", "password", "private_key"]

/-- The exact sensitive filenames of script line 63. -/
def sensitiveExactNames : List String :=
  ["tokens.json", ".env", "credentials.json", "secrets.json"]

/-- One filename matches the script's sensitive-filename patterns
(script lines 61-63). -/
def sensitiveName (f : String) : Bool :=
  sensitiveExts.any (fun e => strEnds f e) ||
  sensitiveWords.any (fun w => strSub f w) ||
  sensitiveExactNames.any (fun e => f == e)

/-- Check 2a (script lines 57-69): no file about to be committed has a
sensitive name. Its failure assignment runs inside a piped while-read loop. -/
def filenameCheck (s : RepoState) : Bool :=
  !(s.inGitRepo && s.filesToCommit.any sensitiveName)

/-- Check 2b (script lines 84-89): no staged file content matches a
sensitive content pattern. -/
def contentCheck (s : RepoState) : Bool :=
  !(s.inGitRepo && s.stagedSensitiveContent)

/-- The specific sensitive files of check 3 (script lines 102-109). -/
def sensitiveFilesList : List String :=
  [".env", "data/tokens.json", "tokens.json", "src/access_token.json",
   "credentials.json", "secrets.json"]

/-- Check 3: every specific sensitive file that exists on disk is ignored. -/
def sensitiveFilesCheck (s : RepoState) : Bool :=
  sensitiveFilesList.all (fun f => !(s.diskFiles.contains f) || s.ignoredPaths.contains f)

/-- Check 4 (script lines 135-148): every database file found is ignored.
Its failure assignment runs inside a piped while-read loop. -/
def dbFilesCheck (s : RepoState) : Bool :=
  s.dbFiles.all (fun f => s.ignoredPaths.contains f)

/-- Check 5 (script lines 154-163): a .venv directory, if present, is ignored. -/
def venvCheck (s : RepoState) : Bool :=
  !s.venvExists || s.ignoredPaths.contains (".venv")

/-- Where a check's SAFE_TO_PUSH=false assignment executes: in the main
shell, or in the subshell bash spawns for the body of a piped while-read
loop. -/
inductive ShellCtx where
  | main
  | sub
  deriving DecidableEq, Repr

/-- The script's six checks in order, each with the shell context of its
failure assignment and whether it passed on this repository state. -/
def scriptChecks (s : RepoState) : List (ShellCtx × Bool) :=
  [(.main, gitignoreCheck s),
   (.sub, filenameCheck s),
   (.main, contentCheck s),
   (.main, sensitiveFilesCheck s),
   (.sub, dbFilesCheck s),
   (.main, venvCheck s)]

/-- Effect of one check on the parent shell's SAFE_TO_PUSH flag: a failing
main-shell check clears the flag; an assignment made in a subshell is lost
when the subshell exits, leaving the flag as it was. -/
def applyCheck (flag : Bool) (c : ShellCtx × Bool) : Bool :=
  match c.1 with
  | .main => flag && c.2
  | .sub => flag

/-- The final SAFE_TO_PUSH value the verdict at script line 170 reads:
the flag after folding every check over the initial value true. -/
def scriptVerdict (s : RepoState) : Bool :=
  (scriptChecks s).foldl applyCheck true

/-- Did every individual check of the script pass? -/
def allChecksPass (s : RepoState) : Bool :=
  (scriptChecks s).all (fun c => c.2)

/-- A repository state with a clean .gitignore and nothing else wrong except
one untracked file server.pem about to be committed — a name check 2a flags
as potentially sensitive from inside its piped subshell. -/
def repoWithPemFile : RepoState :=
  ⟨some [".env", "tokens.json", ".venv/", "__pycache__/"],
   true, ["server.pem"], false, ["server.pem"], [], [], false⟩


/-! Sample data used by the witnesses -/

/-- A concrete local timestamp shared by the sample rows. -/
def sampleDate : LocalDateTime := ⟨2024, 5, 1, 10, 30, 0⟩

/-- A sample normalized activity. -/
def rowA : NormalizedActivity := ⟨1, ("Run A"), 10, 1, ("Run"), sampleDate, 10, 4, 2024, 5⟩

/-- A second sample normalized activity with a distinct natural key. -/
def rowB : NormalizedActivity := ⟨2, ("Ride B"), 20, 1, ("Ride"), sampleDate, 10, 4, 2024, 5⟩

/-- A well-formed raw record with distance 10000 m and moving time 3600 s. -/
def rawSample : RawActivity :=
  ⟨.num 42, .str ("Morning Run"), .num 10000, .num 3600, .str ("Run"),
   .str ("2024-05-01T10:30:00Z")⟩

/-- A raw record missing its required start_date_local field. -/
def rawBad : RawActivity := ⟨.num 7, .str ("No date"), .num 100, .num 60, .str ("Run"), .missing⟩

/-- A raw record used to populate full pages in the extractor scenario. -/
def pageRaw : RawActivity := ⟨.num 1, .missing, .num 100, .num 60, .str ("Run"), .missing⟩

/-- A rational is exactly representable as an IEEE-754 double: an integer
significand below 2^53 times a power of two. -/
def representableDouble (q : Rat) : Prop :=
  ∃ (m : Int) (e : Int), m.natAbs < 2 ^ 53 ∧ q = (m : Rat) * (2 : Rat) ^ e

/-! Helper lemmas -/

lemma normalize_error_iff (r : RawActivity) :
    normalize r = .error .SchemaViolation ↔ requiredFieldsOk r = false := by
  obtain ⟨id0, nm0, d0, mt0, st0, sd0⟩ := r
  cases id0 <;> cases d0 <;> cases mt0 <;> cases st0 <;> cases sd0 <;>
    simp [normalize, requiredFieldsOk]
  all_goals (rename_i iq dq mq sts sds; by_cases hden : iq.den = 1 <;>
    cases hdt : parseDateTime sds <;> simp [hden, hdt])

lemma transformBatch_append (l1 l2 : List RawActivity) :
    transformBatch (l1 ++ l2)
      = ⟨(transformBatch l1).rows ++ (transformBatch l2).rows,
         (transformBatch l1).skipped + (transformBatch l2).skipped⟩ := by
  induction l1 with
  | nil => simp [transformBatch]
  | cons r rs ih =>
    cases h : normalize r
    · simp [transformBatch, h, ih]
      omega
    · simp [transformBatch, h, ih]

lemma transformBatch_cons_bad (r : RawActivity) (rs : List RawActivity)
    (h : requiredFieldsOk r = false) :
    transformBatch (r :: rs) = ⟨(transformBatch rs).rows, (transformBatch rs).skipped + 1⟩ := by
  have he : normalize r = .error .SchemaViolation := (normalize_error_iff r).mpr h
  simp [transformBatch, he]

lemma dateFilter_none_none (r : RawActivity) : dateFilter none none r = true := by
  cases h : rawDateCode r <;> simp [dateFilter, h]

lemma fetchLoop_count_le (src : Nat → List RawActivity) (pp : Nat) (keep : RawActivity → Bool) :
    ∀ fuel page, (fetchLoop src pp keep fuel page).2 ≤ fuel := by
  intro fuel
  induction fuel with
  | zero => intro page; simp [fetchLoop]
  | succ f ih =>
    intro page
    by_cases h : stopPage src pp keep page = true
    · simp [fetchLoop, h]
    · simp [fetchLoop, h]
      exact ih (page + 1)

lemma fetchLoop_count_pos (src : Nat → List RawActivity) (pp : Nat) (keep : RawActivity → Bool)
    (fuel page : Nat) (h : 0 < fuel) : 1 ≤ (fetchLoop src pp keep fuel page).2 := by
  cases fuel with
  | zero => omega
  | succ f =>
    by_cases hs : stopPage src pp keep page = true <;> simp [fetchLoop, hs]

lemma fetchLoop_no_early_stop (src : Nat → List RawActivity) (pp : Nat)
    (keep : RawActivity → Bool) :
    ∀ fuel page i, i + 1 < (fetchLoop src pp keep fuel page).2 →
      stopPage src pp keep (page + i) = false := by
  intro fuel
  induction fuel with
  | zero => intro page i h; simp [fetchLoop] at h
  | succ f ih =>
    intro page i h
    by_cases hs : stopPage src pp keep page = true
    · simp [fetchLoop, hs] at h
    · simp [fetchLoop, hs] at h
      cases i with
      | zero => simpa using hs
      | succ j =>
        have hj := ih (page + 1) j (by omega)
        have heq : page + (j + 1) = page + 1 + j := by omega
        rw [heq]
        exact hj

lemma fetchLoop_stop_at_last (src : Nat → List RawActivity) (pp : Nat)
    (keep : RawActivity → Bool) :
    ∀ fuel page, (fetchLoop src pp keep fuel page).2 < fuel →
      stopPage src pp keep (page + (fetchLoop src pp keep fuel page).2 - 1) = true := by
  intro fuel
  induction fuel with
  | zero => intro page h; omega
  | succ f ih =>
    intro page h
    by_cases hs : stopPage src pp keep page = true
    · simp only [fetchLoop, hs]
      simpa using hs
    · simp only [fetchLoop, hs] at h ⊢
      simp only [Bool.not_eq_true] at hs
      simp [hs] at h ⊢
      have h2 : (fetchLoop src pp keep f (page + 1)).2 < f := by omega
      have hf : 0 < f := by omega
      have hpos : 1 ≤ (fetchLoop src pp keep f (page + 1)).2 :=
        fetchLoop_count_pos src pp keep f (page + 1) hf
      have heq : page + (fetchLoop src pp keep f (page + 1)).2
          = page + 1 + (fetchLoop src pp keep f (page + 1)).2 - 1 := by
        omega
      rw [heq]
      exact ih (page + 1) h2

lemma fetchLoop_full_pages (src : Nat → List RawActivity) (pp : Nat)
    (hpp : 0 < pp) (hfull : ∀ i, (src i).length = pp) :
    ∀ fuel page, (fetchLoop src pp (dateFilter none none) fuel page).2 = fuel := by
  intro fuel
  induction fuel with
  | zero => intro page; simp [fetchLoop]
  | succ f ih =>
    intro page
    have hkeep : (src page).filter (dateFilter none none) = src page :=
      List.filter_eq_self.mpr (fun a _ => dateFilter_none_none a)
    have h1 : ¬ ((src page).length < pp) := by
      rw [hfull page]
      omega
    have h2 : ((src page).filter (dateFilter none none)).isEmpty = false := by
      rw [hkeep]
      have hne : (src page).length ≠ 0 := by rw [hfull page]; omega
      simpa [List.isEmpty_iff_length_eq_zero] using hne
    have hstop : stopPage src pp (dateFilter none none) page = false := by
      simp [stopPage, h1, h2]
    simp [fetchLoop, hstop, ih]


/-! Claim theorems -/

/-- C2: for every stored Credential whose seconds_remaining exceeds the
refresh buffer, ensure_valid with force=false returns the stored Credential
unchanged (byte-identical), persists nothing new, and makes zero network
calls. -/
theorem ensure_valid_fresh_noop (ep : TokenEndpoint) (c : Credential) (now buffer : Int)
    (h : buffer < seconds_remaining c now) :
    ensure_valid ep (some c) now buffer false = ⟨.ok c, some c, 0⟩ := by
  have hn : ¬ seconds_remaining c now ≤ buffer := not_le.mpr h
  simp [ensure_valid, hn]

theorem ensure_valid_fresh_noop_witness :
    (600 : Int) < seconds_remaining ⟨("tok"), ("ref"), 5000⟩ 0 ∧
    ensure_valid ⟨true, ("tok2"), ("ref2"), 21600⟩ (some ⟨("tok"), ("ref"), 5000⟩) 0 600 false
      = ⟨.ok ⟨("tok"), ("ref"), 5000⟩, some ⟨("tok"), ("ref"), 5000⟩, 0⟩ :=
  ⟨by decide,
   ensure_valid_fresh_noop ⟨true, ("tok2"), ("ref2"), 21600⟩ ⟨("tok"), ("ref"), 5000⟩ 0 600
     (by decide)⟩

/-- C3: for every stored Credential within the refresh buffer, ensure_valid
issues exactly one refresh-exchange call; on acceptance it persists a new
Credential whose expires_at is strictly greater than the old one's (given
that the endpoint grants a lifetime longer than the buffer), and on
rejection it fails with RefreshFailed without retrying — still exactly one
call — leaving the stored Credential in place. -/
theorem ensure_valid_refresh_due (ep : TokenEndpoint) (c : Credential) (now buffer : Int)
    (hdue : seconds_remaining c now ≤ buffer) (hgrant : buffer < ep.expires_in) :
    (ensure_valid ep (some c) now buffer false).network_calls = 1 ∧
    (ep.accept = true →
      ∃ fresh, (ensure_valid ep (some c) now buffer false).result = .ok fresh ∧
        (ensure_valid ep (some c) now buffer false).store = some fresh ∧
        c.expires_at < fresh.expires_at) ∧
    (ep.accept = false →
      (ensure_valid ep (some c) now buffer false).result = .error .RefreshFailed ∧
      (ensure_valid ep (some c) now buffer false).store = some c) := by
  have hcap : c.expires_at < now + ep.expires_in := by
    unfold seconds_remaining at hdue
    omega
  cases hacc : ep.accept <;> simp [ensure_valid, hdue, hacc]
  exact hcap

theorem ensure_valid_refresh_due_witness :
    seconds_remaining ⟨("tok"), ("ref"), 500⟩ 0 ≤ 600 ∧
    (ensure_valid ⟨true, ("tok2"), ("ref2"), 21600⟩ (some ⟨("tok"), ("ref"), 500⟩) 0 600
      false).network_calls = 1 :=
  ⟨by decide,
   (ensure_valid_refresh_due ⟨true, ("tok2"), ("ref2"), 21600⟩ ⟨("tok"), ("ref"), 500⟩ 0 600
     (by decide) (by decide)).1⟩

/-- C1: loading the same LoadBatch twice with dedup=true (append policy,
batch ids not yet present in the table) writes all N rows on the first call,
zero rows on the second, and leaves the destination table row count
unchanged after the second call. -/
theorem load_dedup_idempotent (batch : LoadBatch) (table : List NormalizedActivity)
    (hpol : batch.policy = .append) (hded : batch.dedup = true)
    (hfresh : ∀ r ∈ batch.rows, ∀ t ∈ table, t.activity_id ≠ r.activity_id) :
    (load batch table).rows_written = batch.rows.length ∧
    (load batch (load batch table).table).rows_written = 0 ∧
    (load batch (load batch table).table).table.length = (load batch table).table.length := by
  have h1 : batch.rows.filter
      (fun r => !(table.any (fun t => t.activity_id == r.activity_id))) = batch.rows := by
    apply List.filter_eq_self.mpr
    intro a ha
    simp only [Bool.not_eq_true', List.any_eq_false]
    intro t ht
    simpa using hfresh a ha t ht
  have h2 : batch.rows.filter
      (fun r => !((table ++ batch.rows).any (fun t => t.activity_id == r.activity_id))) = [] := by
    apply List.filter_eq_nil_iff.mpr
    intro a ha
    have hmem : (table ++ batch.rows).any (fun t => t.activity_id == a.activity_id) = true :=
      List.any_eq_true.mpr ⟨a, by simp [ha], by simp⟩
    simp [hmem]
  refine ⟨?_, ?_, ?_⟩ <;> simp [load, hpol, hded, h1, h2] <;>
    exact fun a ha _ => ⟨a, ha, rfl⟩

theorem load_dedup_idempotent_witness :
    (load ⟨[rowA, rowB], .append, true⟩ []).rows_written = 2 ∧
    (load ⟨[rowA, rowB], .append, true⟩
      (load ⟨[rowA, rowB], .append, true⟩ []).table).rows_written = 0 :=
  ⟨(load_dedup_idempotent ⟨[rowA, rowB], .append, true⟩ [] rfl rfl (by simp)).1,
   (load_dedup_idempotent ⟨[rowA, rowB], .append, true⟩ [] rfl rfl (by simp)).2.1⟩

/-- C7: load with conflict_policy=fail against a table that already contains
a row dated within the batch's covered date range raises LoadConflict,
writes zero rows, and leaves the table unchanged. -/
theorem load_fail_policy_conflict (batch : LoadBatch) (table : List NormalizedActivity)
    (hpol : batch.policy = .fail)
    (hconf : ∃ t ∈ table, coveredBy batch.rows t = true) :
    (load batch table).result = .error .LoadConflict ∧
    (load batch table).table = table ∧
    (load batch table).rows_written = 0 := by
  obtain ⟨t, ht, hc⟩ := hconf
  have hany : table.any (fun u => coveredBy batch.rows u) = true :=
    List.any_eq_true.mpr ⟨t, ht, hc⟩
  simp [load, hpol, hany]

theorem load_fail_policy_conflict_witness :
    coveredBy [rowA] rowB = true ∧
    (load ⟨[rowA], .fail, false⟩ [rowB]).result = .error .LoadConflict ∧
    (load ⟨[rowA], .fail, false⟩ [rowB]).rows_written = 0 :=
  ⟨by decide,
   (load_fail_policy_conflict ⟨[rowA], .fail, false⟩ [rowB] rfl
     ⟨rowB, List.Mem.head _, by decide⟩).1,
   (load_fail_policy_conflict ⟨[rowA], .fail, false⟩ [rowB] rfl
     ⟨rowB, List.Mem.head _, by decide⟩).2.2⟩

/-- C4: fetch_activities fetches at least one and at most max_pages pages;
every page before the last fetched one was neither short nor emptied by the
date filter, and when it stops before max_pages the last page fetched was;
with max_pages=2 against a source of always-full pages it fetches exactly 2
pages. The produced sequence is a finite list by construction. -/
theorem fetch_activities_page_bound (src : Nat → List RawActivity) (pp : Nat)
    (after? before? : Option Nat) (mp : Nat) (hmp : 0 < mp) :
    1 ≤ (fetch_activities src pp after? before? mp).2 ∧
    (fetch_activities src pp after? before? mp).2 ≤ mp ∧
    (∀ i, i + 1 < (fetch_activities src pp after? before? mp).2 →
      stopPage src pp (dateFilter after? before?) (1 + i) = false) ∧
    ((fetch_activities src pp after? before? mp).2 < mp →
      stopPage src pp (dateFilter after? before?)
        ((fetch_activities src pp after? before? mp).2) = true) ∧
    ((∀ i, (src i).length = pp) → 0 < pp → after? = none → before? = none → mp = 2 →
      (fetch_activities src pp after? before? mp).2 = 2) := by
  refine ⟨fetchLoop_count_pos src pp _ mp 1 hmp, fetchLoop_count_le src pp _ mp 1,
    fun i h => fetchLoop_no_early_stop src pp _ mp 1 i h, ?_, ?_⟩
  · intro h
    have hstop := fetchLoop_stop_at_last src pp (dateFilter after? before?) mp 1 h
    have hpos := fetchLoop_count_pos src pp (dateFilter after? before?) mp 1 hmp
    have heq : 1 + (fetchLoop src pp (dateFilter after? before?) mp 1).2 - 1
        = (fetchLoop src pp (dateFilter after? before?) mp 1).2 := by omega
    rw [heq] at hstop
    exact hstop
  · rintro hfull hpp rfl rfl rfl
    exact fetchLoop_full_pages src pp hpp hfull 2 1

theorem fetch_activities_page_bound_witness :
    (0 : Nat) < 2 ∧
    (fetch_activities (fun _ => [pageRaw, pageRaw]) 2 none none 2).2 = 2 :=
  ⟨by decide,
   (fetch_activities_page_bound (fun _ => [pageRaw, pageRaw]) 2 none none 2
     (by decide)).2.2.2.2 (fun _ => rfl) (by decide) rfl rfl rfl⟩

/-- C5: on a RawActivity with all required fields present and valid,
normalize succeeds and converts distance exactly by dividing by 1000 and
moving time exactly by dividing by 3600, with no rounding (the embedding
computes in exact rational arithmetic); in particular distance=10000 and
moving_time=3600 yield distance_km=10 and moving_time_hr=1, and both
results are exactly representable as IEEE-754 doubles, so double-precision
division is exact there. -/
theorem normalize_unit_conversions (r : RawActivity) (i d mt : Rat) (st sd : String)
    (dt : LocalDateTime)
    (hid : r.id = .num i) (hden : i.den = 1) (hd : r.distance = .num d)
    (hmt : r.moving_time = .num mt) (hst : r.sport_type = .str st)
    (hsd : r.start_date_local = .str sd) (hdt : parseDateTime sd = some dt) :
    ∃ n : NormalizedActivity, normalize r = .ok n ∧
      n.distance_km = d / 1000 ∧ n.moving_time_hr = mt / 3600 ∧
      (d = 10000 → n.distance_km = 10 ∧ representableDouble n.distance_km) ∧
      (mt = 3600 → n.moving_time_hr = 1 ∧ representableDouble n.moving_time_hr) := by
  obtain ⟨id0, nm0, d0, mt0, st0, sd0⟩ := r
  simp only at hid hd hmt hst hsd
  subst hid
  subst hd
  subst hmt
  subst hst
  subst hsd
  refine ⟨⟨i.num, nameOr ⟨.num i, nm0, .num d, .num mt, .str st, .str sd⟩, d / 1000,
      mt / 3600, st, dt, dt.hour, weekdayOf dt.year dt.month dt.day, dt.year, dt.month⟩,
    ?_, rfl, rfl, ?_, ?_⟩
  · simp [normalize, hden, hdt]
  · rintro rfl
    have hval : (10000 : Rat) / 1000 = 10 := by norm_num
    rw [hval]
    exact ⟨rfl, 10, 0, by norm_num, by norm_num⟩
  · rintro rfl
    have hval : (3600 : Rat) / 3600 = 1 := by norm_num
    rw [hval]
    exact ⟨rfl, 1, 0, by norm_num, by norm_num⟩

theorem normalize_unit_conversions_witness :
    parseDateTime ("2024-05-01T10:30:00Z") = some ⟨2024, 5, 1, 10, 30, 0⟩ ∧
    (∃ n : NormalizedActivity, normalize rawSample = .ok n ∧
      n.distance_km = 10000 / 1000 ∧ n.moving_time_hr = 3600 / 3600 ∧
      ((10000 : Rat) = 10000 → n.distance_km = 10 ∧ representableDouble n.distance_km) ∧
      ((3600 : Rat) = 3600 → n.moving_time_hr = 1 ∧ representableDouble n.moving_time_hr)) :=
  ⟨by decide,
   normalize_unit_conversions rawSample 42 10000 3600 ("Run") ("2024-05-01T10:30:00Z")
     ⟨2024, 5, 1, 10, 30, 0⟩ rfl (by decide) rfl rfl rfl rfl (by decide)⟩

/-- C6: normalize fails with SchemaViolation exactly when a required field
(id, distance, moving_time, sport_type, start_date_local) is absent or
malformed; a batch containing such a record skips it, counts it once in the
run summary, and still processes every other record of the same batch
instead of aborting. -/
theorem normalize_schema_violation_skip :
    (∀ r : RawActivity, (normalize r = .error .SchemaViolation ↔ requiredFieldsOk r = false)) ∧
    (∀ (pre : List RawActivity) (r : RawActivity) (post : List RawActivity),
      requiredFieldsOk r = false →
      (transformBatch (pre ++ r :: post)).rows
        = (transformBatch pre).rows ++ (transformBatch post).rows ∧
      (transformBatch (pre ++ r :: post)).skipped
        = (transformBatch pre).skipped + (transformBatch post).skipped + 1) := by
  refine ⟨normalize_error_iff, ?_⟩
  intro pre r post h
  rw [transformBatch_append pre (r :: post), transformBatch_cons_bad r post h]
  constructor
  · rfl
  · simp [Nat.add_assoc]

theorem normalize_schema_violation_skip_witness :
    requiredFieldsOk rawBad = false ∧
    (transformBatch ([rawSample] ++ rawBad :: [rawSample])).skipped
      = (transformBatch [rawSample]).skipped + (transformBatch [rawSample]).skipped + 1 :=
  ⟨by decide,
   (normalize_schema_violation_skip.2 [rawSample] rawBad [rawSample] (by decide)).2⟩

/-- C8: every Coordinator run traverses the states in the strict sequential
order Idle, TokenCheck, Extracting, Transforming, Loading, Done; a failing
step moves directly to the terminal Failed state carrying the structured
result, the failing step is one of the four work steps, and no state is
ever visited twice — the Coordinator retries nothing. -/
theorem run_sequential_transitions (s : StepOutcomes) :
    ((run s).failed = none → (run s).trace = okTrace) ∧
    (∀ info : FailInfo, (run s).failed = some info →
      (run s).trace = okTrace.take (stepIndex info.step_failed + 1) ++ [.Failed] ∧
      info.step_failed ∈ ([.TokenCheck, .Extracting, .Transforming, .Loading] : List CoordState)) ∧
    (∀ st : CoordState, ((run s).trace.count st) ≤ 1) := by
  obtain ⟨t, ex, tr, lo⟩ := s
  cases t <;> cases ex <;> cases tr <;> cases lo <;>
    refine ⟨fun h => by simp [run] at h ⊢, fun info hinfo => ?_, fun st => by
      cases st <;> simp [run, okTrace]⟩ <;>
    simp [run] at hinfo <;>
    try (subst hinfo; simp [run, okTrace, stepIndex])

theorem run_sequential_transitions_witness :
    (run ⟨.ok 0, .error .ExtractionFailed, .ok 0, .ok 0⟩).failed
      = some ⟨.Extracting, .ExtractionFailed, 0⟩ ∧
    (run ⟨.ok 0, .error .ExtractionFailed, .ok 0, .ok 0⟩).trace
      = okTrace.take (stepIndex .Extracting + 1) ++ [.Failed] :=
  ⟨by decide,
   ((run_sequential_transitions ⟨.ok 0, .error .ExtractionFailed, .ok 0, .ok 0⟩).2.1
     ⟨.Extracting, .ExtractionFailed, 0⟩ (by decide)).1⟩

/-- C9: the athletes table created by the notebook's first to_sql write has
no primary-key and no unique constraint on any column (the id column
included); every append inserts all frame rows unconditionally after the
existing rows with no pre-insert existence check; and loading the same
frame twice leaves every row in the table exactly twice as often as it
occurs in the frame. -/
theorem to_sql_append_unconstrained :
    athletesDDL.all (fun c => !c.primaryKey && !c.uniqueKey) = true ∧
    (∀ (frame : List AthleteRow) (t : SqlTable),
      (to_sql_append frame (some t)).rows = t.rows ++ frame) ∧
    (∀ frame : List AthleteRow, (to_sql_append frame none).schema = athletesDDL) ∧
    (∀ (frame : List AthleteRow) (r : AthleteRow),
      (to_sql_append frame (some (to_sql_append frame none))).rows.count r
        = 2 * frame.count r) := by
  refine ⟨by decide, fun frame t => rfl, fun frame => rfl, fun frame r => ?_⟩
  simp [to_sql_append, List.count_append]
  omega

/-- C10: on a repository state whose only problem is an untracked server.pem
about to be committed, the script's sensitive-filename check fails, yet the
final verdict is SAFE TO PUSH: the check's SAFE_TO_PUSH=false assignment
runs in the subshell of a piped while-read loop and never reaches the main
shell, so the reported verdict is not equivalent to every individual check
passing (on this state every failing check is a subshell one, and every
main-shell check passes). -/
theorem scriptVerdict_subshell_divergence :
    scriptVerdict repoWithPemFile = true ∧
    allChecksPass repoWithPemFile = false ∧
    filenameCheck repoWithPemFile = false ∧
    ((scriptChecks repoWithPemFile).filter (fun c => !c.2)).all
      (fun c => c.1 == ShellCtx.sub) = true :=
  ⟨by decide, by decide, by decide, by decide⟩

end StravaAnalytics
